import Mathlib

/-!
Verification of the Citron Xbox launcher front-end (`src/main.cpp`):
the input-repeat decoder, the navigation state machine, the
configuration store, the library scanner and the launch/install
guards, embedded as executable Lean definitions, together with proofs
of the behavioural properties claimed for them.

Wide strings (`std::wstring`) are modelled as `List Char`; machine
integers (`int`, `WORD`, `ULONGLONG`) are modelled as `Int` or `Nat`
(none of the modelled arithmetic can overflow at the values the
program produces).  Filesystem contents, the folder-picker dialog and
the external emulation engine are collaborators outside the visible
source; each tick receives their observable outcome as an explicit
environment value.
-/

namespace Citron

/-- Wide strings from the C++ source, modelled as lists of characters. -/
abbrev Str := List Char

/-! ## Input repeat decoder (`HandleInput`, src/main.cpp lines 520-562)

The decoder owns two globals: `g_LastInputMask` (previous tick's
combined button mask) and `g_NextInputTime` (monotonic threshold for
the next auto-repeat fire). -/

/-- Decoder state: `g_LastInputMask` and `g_NextInputTime`. -/
structure DecoderState where
  lastInputMask : Nat
  nextInputTime : Nat
deriving DecidableEq

/-- One decoder step (lines 550-560): given the combined button mask of
this tick and the current time, decide whether to execute intents this
tick and update the decoder state.  A fresh or changed non-zero mask
fires immediately and arms a 400 ms delay; an unchanged non-zero mask
fires once the armed time is reached and re-arms a 50 ms delay; a zero
mask never fires. -/
def decodeStep (mask currentTime : Nat) (d : DecoderState) : Bool × DecoderState :=
  if mask ≠ 0 then
    if mask ≠ d.lastInputMask then
      (true, ⟨mask, currentTime + 400⟩)
    else if d.nextInputTime ≤ currentTime then
      (true, ⟨mask, currentTime + 50⟩)
    else
      (false, ⟨mask, d.nextInputTime⟩)
  else
    (false, ⟨mask, d.nextInputTime⟩)

/-- Decoder state before tick `i`, for a run over the mask sequence
`ms` sampled at times `ts`, starting from `d0`. -/
def runDecoder (ms ts : Nat → Nat) (d0 : DecoderState) : Nat → DecoderState
  | 0 => d0
  | i + 1 => (decodeStep (ms i) (ts i) (runDecoder ms ts d0 i)).2

/-- Whether the decoder fires (executes intents) at tick `i`. -/
def firesAt (ms ts : Nat → Nat) (d0 : DecoderState) (i : Nat) : Bool :=
  (decodeStep (ms i) (ts i) (runDecoder ms ts d0 i)).1

lemma decodeStep_lastInputMask (mask t : Nat) (d : DecoderState) :
    ((decodeStep mask t d).2).lastInputMask = mask := by
  unfold decodeStep
  split <;> [skip; rfl]
  split <;> [rfl; skip]
  split <;> rfl

lemma runDecoder_lastInputMask (ms ts : Nat → Nat) (d0 : DecoderState) (i : Nat) :
    (runDecoder ms ts d0 (i + 1)).lastInputMask = ms i := by
  simp [runDecoder, decodeStep_lastInputMask]

/-- For an unchanged mask, a step fires exactly when the armed time has
been reached, and re-arms `t + 50` in that case. -/
lemma decodeStep_same_mask (mask t : Nat) (d : DecoderState)
    (hm : mask ≠ 0) (hl : d.lastInputMask = mask) :
    decodeStep mask t d =
      if d.nextInputTime ≤ t then (true, ⟨mask, t + 50⟩)
      else (false, ⟨mask, d.nextInputTime⟩) := by
  unfold decodeStep
  rw [if_pos hm, if_neg (by simp [hl])]

section HeldMask

variable (ms ts : Nat → Nat) (d0 : DecoderState) (m : Nat)

/-- In a constant-mask run, every state from tick 1 on remembers the
held mask. -/
lemma held_lastInputMask (hconst : ∀ i, ms i = m) :
    ∀ k, 1 ≤ k → (runDecoder ms ts d0 k).lastInputMask = m := by
  intro k hk
  cases k with
  | zero => omega
  | succ j => rw [runDecoder_lastInputMask, hconst]

/-- In a constant-mask run, the armed time never drops below
`ts 0 + 400` from tick 1 on. -/
lemma held_nextInputTime_ge
    (hconst : ∀ i, ms i = m) (hm : m ≠ 0) (h0 : d0.lastInputMask = 0)
    (hmono : ∀ i j, i ≤ j → ts i ≤ ts j) :
    ∀ i, 1 ≤ i → ts 0 + 400 ≤ (runDecoder ms ts d0 i).nextInputTime := by
  intro i hi
  induction i with
  | zero => omega
  | succ k ih =>
    rcases Nat.eq_or_lt_of_le hi with h1 | h1
    · -- k = 0 : the fresh press at tick 0 arms ts 0 + 400.
      have hk : k = 0 := by omega
      subst hk
      show (decodeStep (ms 0) (ts 0) d0).2.nextInputTime ≥ ts 0 + 400
      unfold decodeStep
      rw [if_pos (by rw [hconst 0]; exact hm),
          if_pos (by rw [hconst 0, h0]; exact hm)]
    · have hk : 1 ≤ k := by omega
      have ihk := ih hk
      show (decodeStep (ms k) (ts k) (runDecoder ms ts d0 k)).2.nextInputTime ≥ ts 0 + 400
      rw [decodeStep_same_mask (ms k) (ts k) _ (by rw [hconst k]; exact hm)
            (by rw [held_lastInputMask ms ts d0 m hconst k hk, hconst])]
      split
      · have := hmono 0 k (Nat.zero_le k)
        show ts 0 + 400 ≤ ts k + 50
        omega
      · exact ihk

/-- In a constant-mask run, once the decoder fires at tick `i ≥ 1`, the
armed time of every later state is at least `ts i + 50`. -/
lemma held_nextInputTime_ge_of_fire
    (hconst : ∀ i, ms i = m) (hm : m ≠ 0) (_h0 : d0.lastInputMask = 0)
    (hmono : ∀ i j, i ≤ j → ts i ≤ ts j)
    (i : Nat) (hi : 1 ≤ i) (hfire : firesAt ms ts d0 i = true) :
    ∀ k, i < k → ts i + 50 ≤ (runDecoder ms ts d0 k).nextInputTime := by
  intro k hk
  induction k with
  | zero => omega
  | succ n ih =>
    have hmaskn : (runDecoder ms ts d0 n).lastInputMask = ms n := by
      have hn : 1 ≤ n := by omega
      rw [held_lastInputMask ms ts d0 m hconst n hn, hconst]
    rcases Nat.eq_or_lt_of_le hk with h1 | h1
    · -- n = i : the fire at tick i armed ts i + 50.
      have hn : n = i := by omega
      subst hn
      show (decodeStep (ms n) (ts n) (runDecoder ms ts d0 n)).2.nextInputTime ≥ ts n + 50
      unfold firesAt at hfire
      rw [decodeStep_same_mask (ms n) (ts n) _ (by rw [hconst n]; exact hm) hmaskn] at hfire ⊢
      split
      · show ts n + 50 ≤ ts n + 50
        omega
      · simp_all
    · have ihn := ih (by omega)
      show (decodeStep (ms n) (ts n) (runDecoder ms ts d0 n)).2.nextInputTime ≥ ts i + 50
      rw [decodeStep_same_mask (ms n) (ts n) _ (by rw [hconst n]; exact hm) hmaskn]
      split
      · rename_i hle
        have := hmono i n (by omega)
        show ts i + 50 ≤ ts n + 50
        omega
      · exact ihn

/-- A fire at tick `k ≥ 1` of a constant-mask run happens only once the
armed time has been reached. -/
lemma held_fire_le (hconst : ∀ i, ms i = m) (hm : m ≠ 0)
    (k : Nat) (hk : 1 ≤ k) (hfire : firesAt ms ts d0 k = true) :
    (runDecoder ms ts d0 k).nextInputTime ≤ ts k := by
  unfold firesAt at hfire
  rw [decodeStep_same_mask (ms k) (ts k) _ (by rw [hconst k]; exact hm)
        (by rw [held_lastInputMask ms ts d0 m hconst k hk, hconst])] at hfire
  by_cases h : (runDecoder ms ts d0 k).nextInputTime ≤ ts k
  · exact h
  · rw [if_neg h] at hfire
    simp at hfire

end HeldMask

/-- Claim C3: for a single button mask that becomes non-zero at tick 0
(the previous mask being zero) and is then held unchanged over
non-decreasing sample times, the decoder fires at tick 0, fires no
further intent before 400 ms have elapsed since tick 0, fires
thereafter at intervals of at least 50 ms, and never fires on a tick
whose mask is zero. -/
theorem c3_decoder_held_repeat
    (ms ts : Nat → Nat) (d0 : DecoderState) (m : Nat)
    (hconst : ∀ i, ms i = m) (hm : m ≠ 0) (h0 : d0.lastInputMask = 0)
    (hmono : ∀ i j, i ≤ j → ts i ≤ ts j) :
    firesAt ms ts d0 0 = true ∧
    (∀ i, 1 ≤ i → firesAt ms ts d0 i = true → ts 0 + 400 ≤ ts i) ∧
    (∀ i j, 1 ≤ i → i < j → firesAt ms ts d0 i = true →
      firesAt ms ts d0 j = true → ts i + 50 ≤ ts j) ∧
    (∀ (ms2 ts2 : Nat → Nat) (d2 : DecoderState) (i : Nat), ms2 i = 0 →
      firesAt ms2 ts2 d2 i = false) := by
  refine ⟨?_, ?_, ?_, ?_⟩
  · show (decodeStep (ms 0) (ts 0) d0).1 = true
    unfold decodeStep
    rw [if_pos (by rw [hconst 0]; exact hm),
        if_pos (by rw [hconst 0, h0]; exact hm)]
  · intro i hi hfire
    have h1 := held_nextInputTime_ge ms ts d0 m hconst hm h0 hmono i hi
    have h2 := held_fire_le ms ts d0 m hconst hm i hi hfire
    omega
  · intro i j hi hij hfi hfj
    have h1 := held_nextInputTime_ge_of_fire ms ts d0 m hconst hm h0 hmono i hi hfi j hij
    have h2 := held_fire_le ms ts d0 m hconst hm j (by omega) hfj
    omega
  · intro ms2 ts2 d2 i hz
    show (decodeStep (ms2 i) (ts2 i) (runDecoder ms2 ts2 d2 i)).1 = false
    unfold decodeStep
    rw [if_neg (by rw [hz]; exact fun h => h rfl)]

/-- Witness for C3: a concrete held mask `1` sampled at
`0, 1000, 2000, …` ms satisfies the hypotheses, and the decoder fires
at tick 0. -/
theorem c3_decoder_held_repeat_witness :
    (∀ i j : Nat, i ≤ j → 1000 * i ≤ 1000 * j) ∧
    firesAt (fun _ => 1) (fun i => 1000 * i) ⟨0, 0⟩ 0 = true :=
  ⟨fun i j h => Nat.mul_le_mul_left 1000 h,
   (c3_decoder_held_repeat (fun _ => 1) (fun i => 1000 * i) ⟨0, 0⟩ 1
      (fun _ => rfl) (by decide) rfl (fun i j h => Nat.mul_le_mul_left 1000 h)).1⟩

/-! ## String helpers shared by the configuration store

`Trim` (src/main.cpp lines 110-117) strips spaces, tabs, carriage
returns and newlines from both ends; `_wtoi` (used by `LoadSettings`)
skips leading whitespace, accepts an optional sign and reads decimal
digits until the first non-digit. -/

/-- The whitespace characters stripped by `Trim`. -/
def isTrimWs (c : Char) : Bool :=
  c == ' ' || c == '\t' || c == '\r' || c == '\n'

/-- `Trim`: drop leading and trailing whitespace (index-based loop in
the source, equivalent to drop-while from both ends). -/
def trim (s : Str) : Str :=
  List.rdropWhile isTrimWs (s.dropWhile isTrimWs)

/-- The whitespace characters skipped by `_wtoi` (C `isspace`):
space, tab, newline, vertical tab, form feed, carriage return. -/
def isWtoiWs (c : Char) : Bool :=
  c == ' ' || c == '\t' || c == '\n' || c == Char.ofNat 11 ||
  c == Char.ofNat 12 || c == '\r'

/-- Accumulate decimal digits, stopping at the first non-digit. -/
def parseDigits (acc : Nat) : Str → Nat
  | [] => acc
  | c :: cs => if c.isDigit then parseDigits (acc * 10 + (c.toNat - 48)) cs else acc

/-- `_wtoi`: skip whitespace, optional sign, then decimal digits;
returns 0 when no digits follow. -/
def wtoi (s : Str) : Int :=
  match s.dropWhile isWtoiWs with
  | [] => 0
  | c :: cs =>
    if c = '-' then -(parseDigits 0 cs : Int)
    else if c = '+' then (parseDigits 0 cs : Int)
    else (parseDigits 0 (c :: cs) : Int)

structure Values where
  language_index : Int
  region_index : Int
  custom_rtc_enabled : Bool
  use_multi_core : Bool
  memory_layout_mode : Int
  renderer_backend_d3d12 : Bool
  use_disk_shader_cache : Bool
  use_asynchronous_gpu_emulation : Bool
deriving DecidableEq

/-- Underlying value of the external enumerator
`Settings::MemoryLayout::Memory_4Gb` (first enumerator, value 0). -/
def Memory_4Gb : Int := 0

/-- Underlying value of the external enumerator
`Settings::MemoryLayout::Memory_6Gb` (second enumerator, value 1). -/
def Memory_6Gb : Int := 1

/-! ## Sorting and deduplication of `g_UserGamePaths`

`SaveSettings` (lines 218-220) runs `std::sort` followed by
`std::unique`/`erase` on the path list before writing it out. -/

/-- `std::wstring operator<`: lexicographic comparison by character
code. -/
def strLtB : Str → Str → Bool
  | [], [] => false
  | [], _ :: _ => true
  | _ :: _, [] => false
  | a :: as, b :: bs => if a < b then true else if b < a then false else strLtB as bs

/-- `std::unique`: drop every element equal to its surviving
predecessor (tail of the scan, given the last kept element). -/
def uniqConsecFrom (prev : Str) : List Str → List Str
  | [] => []
  | b :: rest => if b = prev then uniqConsecFrom prev rest else b :: uniqConsecFrom b rest

/-- `std::unique`: keep the first element of every run of equal
consecutive elements. -/
def uniqConsec : List Str → List Str
  | [] => []
  | a :: rest => a :: uniqConsecFrom a rest

/-- The in-memory effect of lines 218-220 of `SaveSettings`: sort the
path list and erase consecutive duplicates. -/
def sortDedup (ps : List Str) : List Str :=
  uniqConsec (List.insertionSort (fun a b => strLtB a b = true) ps)

/-! ## Configuration store (`SaveSettings` lines 203-226,
`LoadSettings` lines 228-256)

The file is modelled as its character stream; `std::endl` writes a
single newline, `std::getline` splits the stream at newlines and does
not report a final empty segment after a trailing newline. -/

/-- `std::getline` over a character stream: accumulate the current
line (reversed) and split at every newline. -/
def splitLinesAux : Str → Str → List Str
  | [], acc => if acc.isEmpty then [] else [acc.reverse]
  | c :: cs, acc =>
    if c = '\n' then acc.reverse :: splitLinesAux cs []
    else splitLinesAux cs (c :: acc)

/-- The sequence of lines `std::getline` yields for a stream. -/
def splitLines (cs : Str) : List Str := splitLinesAux cs []

/-- `line.find(L'=')` followed by the two `substr` calls: split a line
at its first `=`, when present. -/
def splitAtEq : Str → Option (Str × Str)
  | [] => none
  | c :: rest =>
    if c = '=' then some ([], rest)
    else
      match splitAtEq rest with
      | none => none
      | some (k, v) => some (c :: k, v)

/-- The body of the `LoadSettings` parse loop for one line: trim,
skip empty and `[`-section lines, split at `=`, trim key and value and
dispatch on the recognized keys; `GamePath` accumulates. -/
def applyLine (v : Values) (ps : List Str) (l0 : Str) : Values × List Str :=
  let l := trim l0
  if l = [] then (v, ps)
  else if l.head? = some '[' then (v, ps)
  else
    match splitAtEq l with
    | none => (v, ps)
    | some (k0, val0) =>
      let k := trim k0
      let val := trim val0
      if k = "Language".toList then ({ v with language_index := wtoi val }, ps)
      else if k = "Region".toList then ({ v with region_index := wtoi val }, ps)
      else if k = "CustomRTC".toList then
        ({ v with custom_rtc_enabled := wtoi val != 0 }, ps)
      else if k = "MultiCore".toList then
        ({ v with use_multi_core := wtoi val != 0 }, ps)
      else if k = "MemoryLayout".toList then
        ({ v with memory_layout_mode := wtoi val }, ps)
      else if k = "GamePath".toList then (v, ps ++ [val])
      else (v, ps)

/-- The `LoadSettings` parse loop over all lines. -/
def loadLines : List Str → Values → List Str → Values × List Str
  | [], v, ps => (v, ps)
  | l :: rest, v, ps =>
    let r := applyLine v ps l
    loadLines rest r.1 r.2

/-- `LoadSettings` once the file has opened: clear `g_UserGamePaths`,
then parse every line. -/
def loadFromContent (content : Str) (v : Values) : Values × List Str :=
  loadLines (splitLines content) v []

/-- `LoadSettings` including the open check: when the file cannot be
opened the function returns at once, before the path list is cleared
and before any line is parsed. -/
def loadSettingsFile (file? : Option Str) (v : Values) (ps : List Str) :
    Values × List Str :=
  match file? with
  | none => (v, ps)
  | some content => loadFromContent content v

/-! ## Lemmas about trimming, line splitting and key splitting -/

/-- `::tolower` in the C locale: map `A`-`Z` to `a`-`z`, leave every
other character unchanged. -/
def toLowerChar (c : Char) : Char :=
  if 'A' ≤ c ∧ c ≤ 'Z' then Char.ofNat (c.toNat + 32) else c

/-- Index of the last `.` of a filename, if any. -/
def lastIndexOfDot : Str → Option Nat
  | [] => none
  | c :: cs =>
    match lastIndexOfDot cs with
    | some i => some (i + 1)
    | none => if c = '.' then some 0 else none

/-- `std::filesystem::path::extension` on a filename: the substring
from the last period on, except that the names `.` and `..` and a
leading period (dotfile) yield no extension. -/
def fileExt (name : Str) : Str :=
  if name = ['.'] ∨ name = ['.', '.'] then []
  else
    match lastIndexOfDot name with
    | none => []
    | some 0 => []
    | some i => name.drop i

/-- The filter of lines 179-181: lower-cased extension equals `.nsp`
or `.xci`. -/
def isGameFile (name : Str) : Bool :=
  let ext := (fileExt name).map toLowerChar
  ext == ".nsp".toList || ext == ".xci".toList

/-- A library entry: file name and full path (as the list of path
components from the scanned root). -/
structure Game where
  name : Str
  path : List Str
deriving DecidableEq

/-- A node of the directory tree under a scanned root. -/
inductive FsTree where
  | file (name : Str) : FsTree
  | dir (name : Str) (children : List FsTree) : FsTree

/-- The collection loop of lines 174-187 over a forest of entries:
regular files are kept when `isGameFile` accepts their name;
directories are recursed into. `pre` is the path prefix from the
root. -/
def scanForest (pre : List Str) : List FsTree → List Game
  | [] => []
  | FsTree.file n :: rest =>
    (if isGameFile n then [⟨n, pre ++ [n]⟩] else []) ++ scanForest pre rest
  | FsTree.dir d cs :: rest => scanForest (pre ++ [d]) cs ++ scanForest pre rest

/-- All regular files of a forest, in traversal order, regardless of
extension (the reference enumeration the scan is compared against). -/
def allFilesForest (pre : List Str) : List FsTree → List Game
  | [] => []
  | FsTree.file n :: rest => ⟨n, pre ++ [n]⟩ :: allFilesForest pre rest
  | FsTree.dir d cs :: rest => allFilesForest (pre ++ [d]) cs ++ allFilesForest pre rest

/-! ## Navigation state machine (`HandleInput`, lines 564-636) -/

/-- `AppState` (line 54). -/
inductive AppState where
  | GameList
  | Settings
  | Running
deriving DecidableEq

/-- `SettingsTab` (line 55). -/
inductive SettingsTab where
  | General
  | System
  | Graphics
  | Audio
  | Network
deriving DecidableEq

/-- The integer value of a `SettingsTab` under `enum class` casting. -/
def tabIdx : SettingsTab → Int
  | .General => 0
  | .System => 1
  | .Graphics => 2
  | .Audio => 3
  | .Network => 4

/-- Casting an in-range integer back to a `SettingsTab`. -/
def tabOfIdx (i : Int) : SettingsTab :=
  if i = 0 then .General
  else if i = 1 then .System
  else if i = 2 then .Graphics
  else if i = 3 then .Audio
  else .Network

/-- Lines 584-587: `LB` cycles one tab left with wraparound. -/
def tabPrev (t : SettingsTab) : SettingsTab :=
  let i := tabIdx t - 1
  tabOfIdx (if i < 0 then 4 else i)

/-- Lines 588-591: `RB` cycles one tab right with wraparound. -/
def tabNext (t : SettingsTab) : SettingsTab :=
  let i := tabIdx t + 1
  tabOfIdx (if i > 4 then 0 else i)

/-- Line 593: rows per tab (`System` 8, `General` 5, placeholders 0). -/
def rowLimit : SettingsTab → Int
  | .System => 8
  | .General => 5
  | _ => 0

/-- The logical buttons sampled each tick (lines 523, 531-537). -/
structure Buttons where
  up : Bool
  down : Bool
  lb : Bool
  rb : Bool
  a : Bool
  b : Bool
  start : Bool
deriving DecidableEq

/-- Lines 541-548: combine the buttons into the tick's mask. -/
def buttonsMask (bt : Buttons) : Nat :=
  (if bt.up then 1 else 0) + (if bt.down then 2 else 0) +
  (if bt.lb then 4 else 0) + (if bt.rb then 8 else 0) +
  (if bt.a then 16 else 0) + (if bt.b then 32 else 0) +
  (if bt.start then 64 else 0)

/-- One entry yielded by `directory_iterator` over the firmware
folder: its file name and whether it is a directory.  The source
checks only the name's extension, never the entry kind. -/
structure DirEntry where
  entryName : Str
  isDirectory : Bool
deriving DecidableEq

/-- The observable outcome of the external collaborators during one
tick: the folder picker, the filesystem as seen by `ScanGames` and
`StartGame`, and the engine's load result. -/
structure Env where
  pickedFolder : Option Str
  scannedGames : List Game
  keysExist : Bool
  nandDir : Option (List DirEntry)
  loadSuccess : Bool
  loadErrorCode : Int
  userDir : Str

/-- The launcher's global mutable state (lines 69-79) other than the
decoder state. -/
structure LauncherState where
  isEditingSetting : Bool
  appState : AppState
  currentTab : SettingsTab
  isInstalling : Bool
  installStatus : Str
  userGamePaths : List Str
  games : List Game
  selectedGameIndex : Int
  selectedSettingIndex : Int
  values : Values
deriving DecidableEq

/-- Result of `StartGame` (lines 454-518) as observable from the
launcher. -/
inductive StartOutcome where
  | blockedKeys (msg : Str)
  | blockedFirmware (msg : Str)
  | bootFailed (code : Int)
  | started
deriving DecidableEq

/-- `root / "keys/prod.keys"` (line 458): `operator/` inserts the
preferred separator. -/
def keyFilePath (root : Str) : Str :=
  root ++ '\\' :: "keys/prod.keys".toList

/-- `root / "nand/system/Contents/registered"` (line 466). -/
def nandRegisteredPath (root : Str) : Str :=
  root ++ '\\' :: "nand/system/Contents/registered".toList

/-- The message shown when `prod.keys` is absent (line 460). -/
def keysMissingMsg (root : Str) : Str :=
  "prod.keys MISSING!\nLocation:\n".toList ++ keyFilePath root ++
  "\n\nPlease use Settings > Install Prod Keys".toList

/-- The message shown when no firmware is found (line 477). -/
def firmwareMissingMsg (root : Str) : Str :=
  "Firmware MISSING!\nLocation:\n".toList ++ nandRegisteredPath root ++
  "\n\nFolder must contain .nca files.\nPlease use Settings > Install Firmware".toList

/-- Lines 466-475: firmware is considered present when the registered
folder exists and some directory entry (of any kind) has extension
`.nca`, compared case-sensitively. -/
def hasFirmwareB (nand : Option (List DirEntry)) : Bool :=
  match nand with
  | none => false
  | some es => es.any (fun e => fileExt e.entryName == ".nca".toList)

/-- `StartGame` (lines 454-518): the two precondition checks, then the
engine configuration and hand-off.  Both blocked branches return
before any state is written.  The engine itself is external; its load
result arrives through the environment. -/
def startGame (env : Env) (_g : Game) (s : LauncherState) :
    StartOutcome × LauncherState :=
  if env.keysExist = false then
    (.blockedKeys (keysMissingMsg env.userDir), s)
  else if hasFirmwareB env.nandDir = false then
    (.blockedFirmware (firmwareMissingMsg env.userDir), s)
  else
    let s :=
      { s with values :=
        { s.values with
          renderer_backend_d3d12 := true,
          use_disk_shader_cache := true,
          use_asynchronous_gpu_emulation := true } }
    if env.loadSuccess then (.started, { s with appState := .Running })
    else (.bootFailed env.loadErrorCode, s)

/-- `InstallFiles` (lines 278-311): no-op while an install is in
flight or when the picker yields nothing; `Add Game Directory` records
the picked folder, saves settings (sorting and deduplicating the path
list) and rescans synchronously; any other title starts the
background copy thread (the returned flag). -/
def installFiles (title : String) (_subPath : Str) (env : Env)
    (s : LauncherState) : LauncherState × Bool :=
  if s.isInstalling then (s, false)
  else
    match env.pickedFolder with
    | none => (s, false)
    | some source =>
      if title = "Add Game Directory" then
        let s1 := { s with userGamePaths := s.userGamePaths ++ [source] }
        let s2 := { s1 with userGamePaths := sortDedup s1.userGamePaths }
        ({ s2 with games := env.scannedGames }, false)
      else (s, true)

/-- Line 610-631: the value mutation applied while editing, selected
by the current row index only (`(up ? 1 : -1)` is the direction;
C++ `%` on `int` truncates, `Int.tmod`). -/
def mutateSetting (row : Int) (up : Bool) (v : Values) : Values :=
  if row = 0 then
    { v with language_index :=
      Int.tmod (v.language_index + (if up then 1 else -1) + 18) 18 }
  else if row = 1 then
    { v with region_index :=
      Int.tmod (v.region_index + (if up then 1 else -1) + 6) 6 }
  else if row = 4 then
    { v with custom_rtc_enabled := !v.custom_rtc_enabled }
  else if row = 6 then
    { v with use_multi_core := !v.use_multi_core }
  else if row = 7 then
    { v with memory_layout_mode :=
      if v.memory_layout_mode = Memory_4Gb then Memory_6Gb else Memory_4Gb }
  else v

/-- Lines 565-576: the `GameList` branch.  Note that after `Start`
switches to the settings screen, the same tick still processes the
game-list navigation below it. -/
def applyGameList (bt : Buttons) (env : Env) (s : LauncherState) : LauncherState :=
  let s1 :=
    if bt.start then
      { s with appState := .Settings, currentTab := .General,
               selectedSettingIndex := 0 }
    else s
  if s1.games ≠ [] then
    let s2 :=
      if bt.up ∧ s1.selectedGameIndex > 0 then
        { s1 with selectedGameIndex := s1.selectedGameIndex - 1 }
      else s1
    let s3 :=
      if bt.down ∧ s2.selectedGameIndex < (s2.games.length : Int) - 1 then
        { s2 with selectedGameIndex := s2.selectedGameIndex + 1 }
      else s2
    if bt.a ∧ s3.selectedGameIndex ≥ 0 then
      match s3.games.get? s3.selectedGameIndex.toNat with
      | some g => (startGame env g s3).2
      | none => s3
    else s3
  else s1

/-- Lines 579-583: `B` or `Start` outside edit mode returns to the
game list and saves the settings (whose in-memory effect is the
sort-plus-dedup of the path list); nothing else is reset. -/
def seLeave (bt : Buttons) (s : LauncherState) : LauncherState :=
  if bt.b ∨ bt.start then
    { s with appState := .GameList, userGamePaths := sortDedup s.userGamePaths }
  else s

/-- Lines 584-591: `LB` then `RB` cycle the tab, each resetting the
selected row to 0. -/
def seTabs (bt : Buttons) (s : LauncherState) : LauncherState :=
  let s2 :=
    if bt.lb then
      { s with currentTab := tabPrev s.currentTab, selectedSettingIndex := 0 }
    else s
  if bt.rb then
    { s2 with currentTab := tabNext s2.currentTab, selectedSettingIndex := 0 }
  else s2

/-- Lines 593-595: row movement clamped to `[0, limit)`, the limit
taken from the tab after the tab switches. -/
def seMove (bt : Buttons) (s : LauncherState) : LauncherState :=
  let limit := rowLimit s.currentTab
  let s4 :=
    if bt.up ∧ s.selectedSettingIndex > 0 then
      { s with selectedSettingIndex := s.selectedSettingIndex - 1 }
    else s
  if bt.down ∧ s4.selectedSettingIndex < limit - 1 then
    { s4 with selectedSettingIndex := s4.selectedSettingIndex + 1 }
  else s4

/-- Lines 597-607: `A` on the final tab and row: the three `General`
action rows invoke `InstallFiles`; the editable `System` rows
{0,1,4,6,7} enter edit mode. -/
def seAction (bt : Buttons) (env : Env) (s : LauncherState) : LauncherState :=
  if bt.a then
    if s.currentTab = .General then
      if s.selectedSettingIndex = 0 then
        (installFiles "Select Keys Folder" "keys".toList env s).1
      else if s.selectedSettingIndex = 1 then
        (installFiles "Select Firmware Folder"
          "nand/system/Contents/registered".toList env s).1
      else if s.selectedSettingIndex = 2 then
        (installFiles "Add Game Directory" [] env s).1
      else s
    else if s.currentTab = .System then
      if s.selectedSettingIndex = 0 ∨ s.selectedSettingIndex = 1 ∨
         s.selectedSettingIndex = 4 ∨ s.selectedSettingIndex = 6 ∨
         s.selectedSettingIndex = 7 then
        { s with isEditingSetting := true }
      else s
    else s
  else s

/-- Lines 578-607: the `Settings` branch outside edit mode.  The four
statement groups run in source order on the successively mutated
state: leaving resets nothing, tab switches reset the row, the row
limit is computed after the tab switches, and `A` acts on the final
tab and row. -/
def applySettingsNoEdit (bt : Buttons) (env : Env) (s : LauncherState) : LauncherState :=
  seAction bt env (seMove bt (seTabs bt (seLeave bt s)))

/-- Lines 608-634: the `Settings` branch in edit mode: `A` or `B`
leaves edit mode; any movement intent in the same tick still mutates
the bound setting. -/
def applySettingsEdit (bt : Buttons) (s : LauncherState) : LauncherState :=
  let s1 := if bt.b ∨ bt.a then { s with isEditingSetting := false } else s
  if bt.up ∨ bt.down ∨ bt.lb ∨ bt.rb then
    { s1 with values := mutateSetting s1.selectedSettingIndex bt.up s1.values }
  else s1

/-- Lines 564-636: dispatch of an executed tick on the current screen
and edit flag. -/
def applyIntents (bt : Buttons) (env : Env) (s : LauncherState) : LauncherState :=
  if s.appState = AppState.GameList then applyGameList bt env s
  else if s.appState = AppState.Settings then
    if s.isEditingSetting = false then applySettingsNoEdit bt env s
    else applySettingsEdit bt s
  else s

/-- The raw input of one tick: buttons and `GetTickCount64` time. -/
structure TickInput where
  buttons : Buttons
  time : Nat

/-- Launcher state plus decoder state: all of `HandleInput`'s state. -/
structure FullState where
  launcher : LauncherState
  decoder : DecoderState
deriving DecidableEq

/-- One full `HandleInput` call: build the mask, run the repeat
decoder, and apply the intents when it fires. -/
def handleInput (inp : TickInput) (env : Env) (st : FullState) : FullState :=
  let mask := buttonsMask inp.buttons
  let r := decodeStep mask inp.time st.decoder
  let st1 : FullState := { st with decoder := r.2 }
  if r.1 then { st1 with launcher := applyIntents inp.buttons env st1.launcher }
  else st1

/-- A sequence of `HandleInput` calls. -/
def runTicks (script : List (TickInput × Env)) (st : FullState) : FullState :=
  script.foldl (fun acc p => handleInput p.1 p.2 acc) st

/-! ## Claim C4: save-then-load round-trip -/

/-- A concrete settings record (the engine-side defaults are external;
any concrete record serves as the in-memory state of a run). -/
def sampleValues : Values :=
  ⟨1, 1, false, true, 0, false, false, false⟩

/-- No button pressed. -/
def noButtons : Buttons :=
  ⟨false, false, false, false, false, false, false⟩

/-- An environment in which no external event happens. -/
def idleEnv : Env :=
  ⟨none, [], false, none, false, 0, "root".toList⟩

/-- A concrete game entry. -/
def sampleGame (n : String) : Game := ⟨n.toList, [n.toList]⟩

/-! ## Claim C10 -/

/-- Claim C10: when the configuration file cannot be opened,
`LoadSettings` returns at once with every setting and the in-memory
search-path list unchanged; the path list is cleared (ignored) only
once a file has opened, whatever was in memory before. -/
theorem c10_load_unopened_file_keeps_state :
    (∀ (v : Values) (ps : List Str), loadSettingsFile none v ps = (v, ps)) ∧
    (∀ (v : Values) (ps qs : List Str) (content : Str),
      loadSettingsFile (some content) v ps = loadSettingsFile (some content) v qs) :=
  ⟨fun _ _ => rfl, fun _ _ _ _ => rfl⟩

/-! ## Claim C8 -/

/-- Claim C8: while an install is in flight (`g_IsInstalling`), any
further install request returns at once: the whole launcher state is
returned unchanged and no background task is started. -/
theorem c8_install_in_flight_noop (s : LauncherState)
    (h : s.isInstalling = true) :
    ∀ (title : String) (subPath : Str) (env : Env),
      installFiles title subPath env s = (s, false) := by
  intro title subPath env
  unfold installFiles
  rw [if_pos h]

/-- Witness for C8: a concrete in-flight state with a picked folder is
left untouched. -/
theorem c8_install_in_flight_noop_witness :
    installFiles "Add Game Directory" []
      ⟨some "p".toList, [sampleGame "h.nsp"], false, none, false, 0, "root".toList⟩
      ⟨false, .Settings, .General, true, "Copying files...".toList, [], [], 0, 2,
        sampleValues⟩ =
    (⟨false, .Settings, .General, true, "Copying files...".toList, [], [], 0, 2,
        sampleValues⟩, false) :=
  c8_install_in_flight_noop _ rfl "Add Game Directory" [] _

/-! ## Claim C1

`ScanGames` (lines 153-188) fully replaces `g_Games` but never touches
`g_SelectedGameIndex`; nothing clamps the index after a rescan.  The
following reachable run leaves the launcher on the game list with one
game while the selected index is 2, and the `A` handler (line 575)
would then read `g_Games[2]` out of bounds. -/

/-- Initial state of the C1 run: three scanned games, cursor at 0. -/
def c1Init : FullState :=
  ⟨⟨false, .GameList, .General, false, [], [],
    [sampleGame "g1.nsp", sampleGame "g2.nsp", sampleGame "g3.nsp"], 0, 0,
    sampleValues⟩, ⟨0, 0⟩⟩

/-- Environment for the tick that picks a new game directory: the
folder picker returns `p`, and the rescan now finds a single game
(the previously scanned drive is gone). -/
def c1PickEnv : Env :=
  ⟨some "p".toList, [sampleGame "h.nsp"], false, none, false, 0, "root".toList⟩

/-- The C1 input script: Down, Down (cursor to 2), Start (settings),
Down, Down (row 2 = `Add Game Directory`), A (pick folder, rescan to a
single game), B (back to the library). -/
def c1Script : List (TickInput × Env) :=
  [(⟨{ noButtons with down := true }, 0⟩, idleEnv),
   (⟨{ noButtons with down := true }, 1000⟩, idleEnv),
   (⟨{ noButtons with start := true }, 2000⟩, idleEnv),
   (⟨{ noButtons with down := true }, 3000⟩, idleEnv),
   (⟨{ noButtons with down := true }, 4000⟩, idleEnv),
   (⟨{ noButtons with a := true }, 5000⟩, c1PickEnv),
   (⟨{ noButtons with b := true }, 6000⟩, idleEnv)]

/-- Claim C1 fails on the code: after the run above the launcher shows
a non-empty library, yet the selected index 2 is not below the game
count 1, and the entry lookup the `A` handler performs is out of
bounds. -/
theorem c1_rescan_leaves_selected_index_out_of_bounds :
    (runTicks c1Script c1Init).launcher.appState = AppState.GameList ∧
    (runTicks c1Script c1Init).launcher.games ≠ [] ∧
    (runTicks c1Script c1Init).launcher.selectedGameIndex = 2 ∧
    ((runTicks c1Script c1Init).launcher.games.length : Int) = 1 ∧
    ¬((runTicks c1Script c1Init).launcher.selectedGameIndex <
        ((runTicks c1Script c1Init).launcher.games.length : Int)) ∧
    (runTicks c1Script c1Init).launcher.games.get?
        (runTicks c1Script c1Init).launcher.selectedGameIndex.toNat = none := by
  decide

/-! ## Field-preservation lemmas for the settings branch -/

lemma seLeave_keeps (bt : Buttons) (s : LauncherState) :
    (seLeave bt s).isEditingSetting = s.isEditingSetting ∧
    (seLeave bt s).currentTab = s.currentTab ∧
    (seLeave bt s).selectedSettingIndex = s.selectedSettingIndex := by
  unfold seLeave
  split <;> exact ⟨rfl, rfl, rfl⟩

lemma seLeave_appState (bt : Buttons) (s : LauncherState)
    (h : bt.b = true ∨ bt.start = true) :
    (seLeave bt s).appState = AppState.GameList := by
  unfold seLeave
  rw [if_pos h]

lemma seTabs_keeps (bt : Buttons) (s : LauncherState) :
    (seTabs bt s).isEditingSetting = s.isEditingSetting ∧
    (seTabs bt s).appState = s.appState := by
  unfold seTabs
  dsimp only
  repeat' (split <;> try exact ⟨rfl, rfl⟩)

lemma seTabs_row_reset (bt : Buttons) (s : LauncherState)
    (h : bt.lb = true ∨ bt.rb = true) :
    (seTabs bt s).selectedSettingIndex = 0 := by
  unfold seTabs
  dsimp only
  rcases h with h | h <;> (repeat' (split <;> try rfl))

lemma seTabs_row_keep (bt : Buttons) (s : LauncherState)
    (hl : bt.lb = false) (hr : bt.rb = false) :
    (seTabs bt s).selectedSettingIndex = s.selectedSettingIndex := by
  simp [seTabs, hl, hr]

lemma seMove_keeps (bt : Buttons) (s : LauncherState) :
    (seMove bt s).isEditingSetting = s.isEditingSetting ∧
    (seMove bt s).appState = s.appState ∧
    (seMove bt s).currentTab = s.currentTab := by
  unfold seMove
  dsimp only
  repeat' (split <;> try exact ⟨rfl, rfl, rfl⟩)

lemma seMove_row_zero (bt : Buttons) (s : LauncherState)
    (h0 : s.selectedSettingIndex = 0) (hd : bt.down = false) :
    (seMove bt s).selectedSettingIndex = 0 := by
  simp [seMove, h0, hd]

lemma seMove_row_keep (bt : Buttons) (s : LauncherState)
    (hu : bt.up = false) (hd : bt.down = false) :
    (seMove bt s).selectedSettingIndex = s.selectedSettingIndex := by
  simp [seMove, hu, hd]

lemma seAction_keeps (bt : Buttons) (env : Env) (s : LauncherState) :
    (seAction bt env s).appState = s.appState ∧
    (seAction bt env s).currentTab = s.currentTab ∧
    (seAction bt env s).selectedSettingIndex = s.selectedSettingIndex := by
  unfold seAction installFiles
  dsimp only
  repeat' (split <;> try exact ⟨rfl, rfl, rfl⟩)

lemma seAction_editing_keep (bt : Buttons) (env : Env) (s : LauncherState)
    (ha : bt.a = false) :
    (seAction bt env s).isEditingSetting = s.isEditingSetting := by
  simp [seAction, ha]

lemma seTabs_tab_keep (bt : Buttons) (s : LauncherState)
    (hl : bt.lb = false) (hr : bt.rb = false) :
    (seTabs bt s).currentTab = s.currentTab := by
  simp [seTabs, hl, hr]

/-- With the edit flag off, `A` ends the tick with the edit flag on
exactly when the current tab is System and the current row is one of
the editable rows {0,1,4,6,7} (lines 597-604); the three General
action rows and every other row or tab leave it off. -/
lemma seAction_editing_iff (bt : Buttons) (env : Env) (s : LauncherState)
    (he : s.isEditingSetting = false) :
    ((seAction bt env s).isEditingSetting = true ↔
      (bt.a = true ∧ s.currentTab = SettingsTab.System ∧
       (s.selectedSettingIndex = 0 ∨ s.selectedSettingIndex = 1 ∨
        s.selectedSettingIndex = 4 ∨ s.selectedSettingIndex = 6 ∨
        s.selectedSettingIndex = 7))) := by
  unfold seAction installFiles
  dsimp only
  repeat' (split <;> try simp_all)

/-- `applyIntents` on a settings screen outside edit mode dispatches
to the sequential settings branch. -/
lemma applyIntents_settings_noedit (bt : Buttons) (env : Env)
    (s : LauncherState) (hs : s.appState = AppState.Settings)
    (he : s.isEditingSetting = false) :
    applyIntents bt env s = seAction bt env (seMove bt (seTabs bt (seLeave bt s))) := by
  unfold applyIntents
  rw [if_neg (by rw [hs]; intro h; cases h), if_pos hs, if_pos he]
  rfl

/-! ## Claim C2 -/

/-- Claim C2 fails on the code: leaving Settings for the game list
(`B`, lines 579-583) changes the screen but does not reset the
selected settings row; from the System tab with row 3 the state lands
on the game list with row still 3. -/
theorem c2_leaving_settings_does_not_reset_row :
    (applyIntents { noButtons with b := true } idleEnv
        ⟨false, .Settings, .System, false, [], [], [], 0, 3, sampleValues⟩).appState =
      AppState.GameList ∧
    (applyIntents { noButtons with b := true } idleEnv
        ⟨false, .Settings, .System, false, [], [], [], 0, 3, sampleValues⟩).selectedSettingIndex =
      3 := by
  decide

set_option maxHeartbeats 1600000 in
/-- Claim C2 as amended: entering Settings from the library resets the
tab to General and the row to 0 (leaving the edit flag as it was); a
tab switch outside edit mode ends the tick with row 0 provided no
simultaneous MoveDown intent, and with editing still false provided no
simultaneous Confirm intent; leaving Settings outside edit mode lands
on the game list but keeps the selected row (it is only reset on the
next entry or tab switch), and - because the `A` handler of lines
597-604 still runs after line 579 has already switched the screen -
the tick ends with editing = false when it carries no Confirm intent,
while with no simultaneous tab or move intents it ends with
editing = true exactly when it carries Confirm on the System tab in an
editable row {0,1,4,6,7}, so the launcher can land on the game list
with the edit flag set. -/
theorem c2_tab_and_screen_transitions (bt : Buttons) (env : Env) (s : LauncherState) :
    (s.appState = AppState.GameList → bt.start = true →
      (applyIntents bt env s).currentTab = SettingsTab.General ∧
      (applyIntents bt env s).selectedSettingIndex = 0 ∧
      (applyIntents bt env s).isEditingSetting = s.isEditingSetting) ∧
    (s.appState = AppState.Settings → s.isEditingSetting = false →
      (bt.lb = true ∨ bt.rb = true) → bt.down = false →
      (applyIntents bt env s).selectedSettingIndex = 0 ∧
      (bt.a = false → (applyIntents bt env s).isEditingSetting = false)) ∧
    (s.appState = AppState.Settings → s.isEditingSetting = false →
      (bt.b = true ∨ bt.start = true) →
      (applyIntents bt env s).appState = AppState.GameList ∧
      (bt.a = false → (applyIntents bt env s).isEditingSetting = false) ∧
      (bt.lb = false → bt.rb = false → bt.up = false → bt.down = false →
        (applyIntents bt env s).selectedSettingIndex = s.selectedSettingIndex ∧
        ((applyIntents bt env s).isEditingSetting = true ↔
          (bt.a = true ∧ s.currentTab = SettingsTab.System ∧
           (s.selectedSettingIndex = 0 ∨ s.selectedSettingIndex = 1 ∨
            s.selectedSettingIndex = 4 ∨ s.selectedSettingIndex = 6 ∨
            s.selectedSettingIndex = 7))))) := by
  refine ⟨fun hs hstart => ?_, fun hs he hlr hd => ?_, fun hs he hbs => ?_⟩
  · refine ⟨?_, ?_, ?_⟩ <;>
      (unfold applyIntents
       rw [if_pos hs]
       unfold applyGameList startGame
       rw [if_pos hstart]
       dsimp only
       repeat' (split <;> try rfl))
  · rw [applyIntents_settings_noedit bt env s hs he]
    constructor
    · rw [(seAction_keeps bt env _).2.2]
      exact seMove_row_zero bt _ (seTabs_row_reset bt _ hlr) hd
    · intro ha
      rw [seAction_editing_keep bt env _ ha, (seMove_keeps bt _).1,
          (seTabs_keeps bt _).1, (seLeave_keeps bt s).1]
      exact he
  · rw [applyIntents_settings_noedit bt env s hs he]
    refine ⟨?_, fun ha => ?_, fun h1 h2 h3 h4 => ⟨?_, ?_⟩⟩
    · rw [(seAction_keeps bt env _).1, (seMove_keeps bt _).2.1,
          (seTabs_keeps bt _).2]
      exact seLeave_appState bt s hbs
    · rw [seAction_editing_keep bt env _ ha, (seMove_keeps bt _).1,
          (seTabs_keeps bt _).1, (seLeave_keeps bt s).1]
      exact he
    · rw [(seAction_keeps bt env _).2.2, seMove_row_keep bt _ h3 h4,
          seTabs_row_keep bt _ h1 h2]
      exact (seLeave_keeps bt s).2.2
    · rw [seAction_editing_iff bt env _
            (by rw [(seMove_keeps bt _).1, (seTabs_keeps bt _).1,
                    (seLeave_keeps bt s).1]; exact he),
          (seMove_keeps bt _).2.2, seTabs_tab_keep bt _ h1 h2,
          (seLeave_keeps bt s).2.1, seMove_row_keep bt _ h3 h4,
          seTabs_row_keep bt _ h1 h2, (seLeave_keeps bt s).2.2]

/-- Witness for the amended C2: a concrete tab switch (`RB` alone)
from System row 5 lands on row 0 with editing off. -/
theorem c2_tab_and_screen_transitions_witness :
    (applyIntents { noButtons with rb := true } idleEnv
        ⟨false, .Settings, .System, false, [], [], [], 0, 5, sampleValues⟩).selectedSettingIndex =
      0 :=
  ((c2_tab_and_screen_transitions { noButtons with rb := true } idleEnv
      ⟨false, .Settings, .System, false, [], [], [], 0, 5, sampleValues⟩).2.1
    rfl rfl (Or.inr rfl) rfl).1

/-! ## Claims C9 and C5: the edit-mode branch -/

/-- `applyIntents` on a settings screen in edit mode dispatches to the
edit branch. -/
lemma applyIntents_settings_edit (bt : Buttons) (env : Env)
    (s : LauncherState) (hs : s.appState = AppState.Settings)
    (he : s.isEditingSetting = true) :
    applyIntents bt env s = applySettingsEdit bt s := by
  unfold applyIntents
  rw [if_neg (by rw [hs]; intro h; cases h), if_pos hs,
      if_neg (by rw [he]; intro h; cases h)]

/-- With a movement intent, the edit branch applies exactly the
row-bound mutation to the values. -/
lemma applySettingsEdit_values (bt : Buttons) (s : LauncherState)
    (hmove : bt.up = true ∨ bt.down = true ∨ bt.lb = true ∨ bt.rb = true) :
    (applySettingsEdit bt s).values =
      mutateSetting s.selectedSettingIndex bt.up s.values := by
  unfold applySettingsEdit
  dsimp only
  rw [if_pos hmove]
  split <;> rfl

/-- Without a movement intent, the edit branch leaves the values
untouched. -/
lemma applySettingsEdit_values_keep (bt : Buttons) (s : LauncherState)
    (h1 : bt.up = false) (h2 : bt.down = false) (h3 : bt.lb = false)
    (h4 : bt.rb = false) :
    (applySettingsEdit bt s).values = s.values := by
  unfold applySettingsEdit
  dsimp only
  rw [if_neg (by simp [h1, h2, h3, h4])]
  split <;> rfl

/-- With `A` or `B` pressed, the edit branch clears the edit flag. -/
lemma applySettingsEdit_clears_editing (bt : Buttons) (s : LauncherState)
    (hab : bt.a = true ∨ bt.b = true) :
    (applySettingsEdit bt s).isEditingSetting = false := by
  unfold applySettingsEdit
  dsimp only
  rw [if_pos (Or.elim hab (fun h => Or.inr h) (fun h => Or.inl h))]
  split <;> rfl

/-- Claim C9 fails on the code: a tick whose intents include Confirm
AND MoveUp, taken in edit mode on the language row, clears the edit
flag (line 609) but still mutates the language value (lines 610-617)
in the same tick. -/
theorem c9_confirm_with_simultaneous_move_mutates :
    (applyIntents { noButtons with a := true, up := true } idleEnv
        ⟨true, .Settings, .System, false, [], [], [], 0, 0, sampleValues⟩).isEditingSetting =
      false ∧
    (applyIntents { noButtons with a := true, up := true } idleEnv
        ⟨true, .Settings, .System, false, [], [], [], 0, 0, sampleValues⟩).values ≠
      sampleValues := by
  decide

/-- Claim C9 as amended: in edit mode, a tick whose intents include
Confirm or Back always clears the edit flag, and leaves every settings
value unchanged provided the tick carries no simultaneous movement
intent (MoveUp/MoveDown/TabPrev/TabNext); a simultaneous movement
intent still mutates the row-bound setting in the same tick. -/
theorem c9_confirm_or_back_exits_edit_mode (bt : Buttons) (env : Env)
    (s : LauncherState) (hs : s.appState = AppState.Settings)
    (he : s.isEditingSetting = true) (hab : bt.a = true ∨ bt.b = true) :
    (applyIntents bt env s).isEditingSetting = false ∧
    (bt.up = false → bt.down = false → bt.lb = false → bt.rb = false →
      (applyIntents bt env s).values = s.values) := by
  rw [applyIntents_settings_edit bt env s hs he]
  exact ⟨applySettingsEdit_clears_editing bt s hab,
    fun h1 h2 h3 h4 => applySettingsEdit_values_keep bt s h1 h2 h3 h4⟩

/-- Witness for the amended C9: a lone Confirm in edit mode leaves
edit mode with the values intact. -/
theorem c9_confirm_or_back_exits_edit_mode_witness :
    (applyIntents { noButtons with a := true } idleEnv
        ⟨true, .Settings, .System, false, [], [], [], 0, 0, sampleValues⟩).isEditingSetting =
      false ∧
    (applyIntents { noButtons with a := true } idleEnv
        ⟨true, .Settings, .System, false, [], [], [], 0, 0, sampleValues⟩).values =
      sampleValues :=
  ⟨(c9_confirm_or_back_exits_edit_mode { noButtons with a := true } idleEnv
      ⟨true, .Settings, .System, false, [], [], [], 0, 0, sampleValues⟩
      rfl rfl (Or.inl rfl)).1,
   (c9_confirm_or_back_exits_edit_mode { noButtons with a := true } idleEnv
      ⟨true, .Settings, .System, false, [], [], [], 0, 0, sampleValues⟩
      rfl rfl (Or.inl rfl)).2 rfl rfl rfl rfl⟩

/-- Row 0 in edit mode mutates exactly the language index. -/
lemma mutateSetting_language (up : Bool) (v : Values) :
    (mutateSetting 0 up v).language_index =
      Int.tmod (v.language_index + (if up then 1 else -1) + 18) 18 := by
  unfold mutateSetting
  rw [if_pos rfl]

/-- Row 1 in edit mode mutates exactly the region index. -/
lemma mutateSetting_region (up : Bool) (v : Values) :
    (mutateSetting 1 up v).region_index =
      Int.tmod (v.region_index + (if up then 1 else -1) + 6) 6 := by
  unfold mutateSetting
  rw [if_neg (by decide), if_pos rfl]

/-- Row 4 in edit mode flips the custom-RTC flag. -/
lemma mutateSetting_rtc (up : Bool) (v : Values) :
    (mutateSetting 4 up v).custom_rtc_enabled = !v.custom_rtc_enabled := by
  unfold mutateSetting
  rw [if_neg (by decide), if_neg (by decide), if_pos rfl]

/-- Row 6 in edit mode flips the multicore flag. -/
lemma mutateSetting_multicore (up : Bool) (v : Values) :
    (mutateSetting 6 up v).use_multi_core = !v.use_multi_core := by
  unfold mutateSetting
  rw [if_neg (by decide), if_neg (by decide), if_neg (by decide), if_pos rfl]

/-- Row 7 in edit mode toggles the memory layout between its two
values. -/
lemma mutateSetting_memory (up : Bool) (v : Values) :
    (mutateSetting 7 up v).memory_layout_mode =
      (if v.memory_layout_mode = Memory_4Gb then Memory_6Gb else Memory_4Gb) := by
  unfold mutateSetting
  rw [if_neg (by decide), if_neg (by decide), if_neg (by decide),
      if_neg (by decide), if_pos rfl]

/-! ## Claim C5 -/

/-- Claim C5: in edit mode with a movement intent, enumerated settings
cycle with wraparound (language: next after 17 is 0 over 18 values;
region: previous before 0 is 5 over 6 values; both stay in range from
any in-range start), and the boolean rows flip regardless of
direction, the memory-layout row toggling between its two values. -/
theorem c5_edit_cycling_wraps (bt : Buttons) (env : Env) (s : LauncherState)
    (hs : s.appState = AppState.Settings) (he : s.isEditingSetting = true)
    (hmove : bt.up = true ∨ bt.down = true ∨ bt.lb = true ∨ bt.rb = true) :
    (s.selectedSettingIndex = 0 → bt.up = true → s.values.language_index = 17 →
      (applyIntents bt env s).values.language_index = 0) ∧
    (s.selectedSettingIndex = 1 → bt.up = false → s.values.region_index = 0 →
      (applyIntents bt env s).values.region_index = 5) ∧
    (s.selectedSettingIndex = 0 → 0 ≤ s.values.language_index →
      s.values.language_index < 18 →
      0 ≤ (applyIntents bt env s).values.language_index ∧
      (applyIntents bt env s).values.language_index < 18) ∧
    (s.selectedSettingIndex = 1 → 0 ≤ s.values.region_index →
      s.values.region_index < 6 →
      0 ≤ (applyIntents bt env s).values.region_index ∧
      (applyIntents bt env s).values.region_index < 6) ∧
    (s.selectedSettingIndex = 4 →
      (applyIntents bt env s).values.custom_rtc_enabled =
        !s.values.custom_rtc_enabled) ∧
    (s.selectedSettingIndex = 6 →
      (applyIntents bt env s).values.use_multi_core =
        !s.values.use_multi_core) ∧
    (s.selectedSettingIndex = 7 →
      (applyIntents bt env s).values.memory_layout_mode =
        (if s.values.memory_layout_mode = Memory_4Gb then Memory_6Gb
         else Memory_4Gb)) := by
  have hv : (applyIntents bt env s).values =
      mutateSetting s.selectedSettingIndex bt.up s.values := by
    rw [applyIntents_settings_edit bt env s hs he]
    exact applySettingsEdit_values bt s hmove
  refine ⟨fun hrow hup h17 => ?_, fun hrow hup h0 => ?_,
          fun hrow hlo hhi => ?_, fun hrow hlo hhi => ?_,
          fun hrow => ?_, fun hrow => ?_, fun hrow => ?_⟩
  · rw [hv, hrow, mutateSetting_language, hup, h17]
    decide
  · rw [hv, hrow, mutateSetting_region, hup, h0]
    decide
  · rw [hv, hrow, mutateSetting_language]
    cases hu : bt.up <;>
      (generalize s.values.language_index = lang at hlo hhi ⊢
       interval_cases lang <;> decide)
  · rw [hv, hrow, mutateSetting_region]
    cases hu : bt.up <;>
      (generalize s.values.region_index = reg at hlo hhi ⊢
       interval_cases reg <;> decide)
  · rw [hv, hrow, mutateSetting_rtc]
  · rw [hv, hrow, mutateSetting_multicore]
  · rw [hv, hrow, mutateSetting_memory]

/-- Witness for C5: a concrete edit tick (`Up` on the language row at
value 17) wraps to 0. -/
theorem c5_edit_cycling_wraps_witness :
    (applyIntents { noButtons with up := true } idleEnv
        ⟨true, .Settings, .System, false, [], [], [], 0, 0,
         { sampleValues with language_index := 17 }⟩).values.language_index = 0 :=
  (c5_edit_cycling_wraps { noButtons with up := true } idleEnv
      ⟨true, .Settings, .System, false, [], [], [], 0, 0,
       { sampleValues with language_index := 17 }⟩
      rfl rfl (Or.inl rfl)).1 rfl rfl rfl

/-! ## Claim C7: launch precondition checks -/

/-- The two blocking messages always differ (their lengths differ for
every root). -/
lemma keysMsg_ne_firmwareMsg (root : Str) :
    keysMissingMsg root ≠ firmwareMissingMsg root := by
  intro h
  have hlen := congrArg List.length h
  simp [keysMissingMsg, firmwareMissingMsg, keyFilePath, nandRegisteredPath] at hlen

/-- The firmware-dir entries of the C7 counterexample: a single
subdirectory whose name carries the `.nca` extension. -/
def c7Entries : List DirEntry := [⟨"x.nca".toList, true⟩]

/-- The C7 counterexample environment: keys present, firmware folder
containing only that subdirectory, engine load succeeding. -/
def c7Env : Env := ⟨none, [], true, some c7Entries, true, 0, "root".toList⟩

/-- A concrete launcher state for the C7 run. -/
def c7State : LauncherState :=
  ⟨false, .GameList, .General, false, [], [], [sampleGame "a.nsp"], 0, 0,
   sampleValues⟩

/-- Claim C7 fails on the code in one corner: the firmware check
(lines 468-474) tests the extension of every directory entry without
checking the entry kind, so a firmware folder holding zero files but
one subdirectory named `x.nca` passes the check and the launch is not
blocked, although the folder contains zero files with the recognized
extension. -/
theorem c7_subdirectory_counts_as_firmware :
    c7Env.nandDir = some c7Entries ∧
    (∀ e ∈ c7Entries, e.isDirectory = true) ∧
    (startGame c7Env (sampleGame "a.nsp") c7State).1 = StartOutcome.started := by
  decide

/-- Claim C7 as amended: `StartGame` blocks the launch with a message
naming the expected key-file path when the key material is absent, and
with a different message naming the firmware path when the firmware
directory yields no directory entry (of any kind, files or
subdirectories) whose name has the `.nca` extension - in particular
when the directory is missing or exists but is empty.  In either
blocked case the whole launcher state is returned unchanged. -/
theorem c7_launch_blocked_checks (env : Env) (g : Game) (s : LauncherState) :
    (env.keysExist = false →
      startGame env g s = (.blockedKeys (keysMissingMsg env.userDir), s)) ∧
    (env.keysExist = true → hasFirmwareB env.nandDir = false →
      startGame env g s = (.blockedFirmware (firmwareMissingMsg env.userDir), s)) ∧
    hasFirmwareB none = false ∧
    hasFirmwareB (some []) = false ∧
    (∀ root, ∃ u w, keysMissingMsg root = u ++ (keyFilePath root ++ w)) ∧
    (∀ root, ∃ u w,
      firmwareMissingMsg root = u ++ (nandRegisteredPath root ++ w)) ∧
    (∀ root, keysMissingMsg root ≠ firmwareMissingMsg root) := by
  refine ⟨fun hk => ?_, fun hk hf => ?_, rfl, rfl, fun root => ?_, fun root => ?_,
          keysMsg_ne_firmwareMsg⟩
  · unfold startGame
    rw [if_pos hk]
  · unfold startGame
    rw [if_neg (by rw [hk]; intro h; cases h), if_pos hf]
  · exact ⟨"prod.keys MISSING!\nLocation:\n".toList,
           "\n\nPlease use Settings > Install Prod Keys".toList, rfl⟩
  · exact ⟨"Firmware MISSING!\nLocation:\n".toList,
           "\n\nFolder must contain .nca files.\nPlease use Settings > Install Firmware".toList,
           rfl⟩

/-- Witness for the amended C7: with the keys absent, a concrete
launch is blocked with the key message and the state is untouched. -/
theorem c7_launch_blocked_checks_witness :
    startGame idleEnv (sampleGame "a.nsp") c7State =
      (.blockedKeys (keysMissingMsg "root".toList), c7State) :=
  (c7_launch_blocked_checks idleEnv (sampleGame "a.nsp") c7State).1 rfl

/-! ## Claim C6: the scanner collects exactly the recognized files -/

/-- The scan of one root is the extension-filter of its regular-file
enumeration, in traversal order. -/
lemma scanForest_eq_filter (pre : List Str) (ts : List FsTree) :
    scanForest pre ts =
      (allFilesForest pre ts).filter (fun g => isGameFile g.name) := by
  induction pre, ts using scanForest.induct with
  | case1 pre => simp [scanForest, allFilesForest]
  | case2 pre n rest ih =>
    simp [scanForest, allFilesForest, List.filter, ih]
    split <;> simp_all
  | case3 pre d cs rest ih1 ih2 =>
    simp [scanForest, allFilesForest, ih1, ih2]

/-- The directory tree of the C6 example: `a.nsp`, `b.NSP`, `c.txt`
and a subdirectory holding `d.xci`. -/
def c6ExampleTree : List FsTree :=
  [FsTree.file "a.nsp".toList, FsTree.file "b.NSP".toList,
   FsTree.file "c.txt".toList,
   FsTree.dir "sub".toList [FsTree.file "d.xci".toList]]

/-- Claim C6: a scan over a directory tree collects exactly the
regular files whose lower-cased extension is `.nsp` or `.xci`,
including files in subdirectories, and excludes every other file; in
particular the example tree yields exactly its three recognized
entries. -/
theorem c6_scan_collects_exactly_recognized_files :
    (∀ (pre : List Str) (ts : List FsTree),
      scanForest pre ts =
        (allFilesForest pre ts).filter (fun g => isGameFile g.name)) ∧
    (∀ (pre : List Str) (ts : List FsTree) (g : Game),
      g ∈ scanForest pre ts ↔ g ∈ allFilesForest pre ts ∧ isGameFile g.name = true) ∧
    scanForest [] c6ExampleTree =
      [⟨"a.nsp".toList, ["a.nsp".toList]⟩,
       ⟨"b.NSP".toList, ["b.NSP".toList]⟩,
       ⟨"d.xci".toList, ["sub".toList, "d.xci".toList]⟩] := by
  refine ⟨scanForest_eq_filter, fun pre ts g => ?_, ?_⟩
  · rw [scanForest_eq_filter, List.mem_filter]
  · simp only [c6ExampleTree, scanForest]
    decide

end Citron
